import Mathlib

/-!
Verification of the document ingestion and semantic-search core
(`app/services/file_processor.py`, `app/services/vector_service.py`,
`app/services/document_service.py`) against its natural-language
specification.  Python text is modelled as `List Char` (one entry per code
point, matching Python string indexing); machine floats are modelled as exact
reals (`ℝ`) or naturals where only integer arithmetic occurs.  The float
product `chunk_size * 0.7` is modelled exactly as the rational comparison
`10 * x > 7 * size`, which agrees with IEEE evaluation at the sizes used in
the witnesses below.
-/

namespace FileProcessor

/-- Entries of the `sentence_ends` list in `_simple_text_chunking` that can
actually match: the membership test `text[i - 1] in sentence_ends` compares a
single character against each list entry, so the two-character entry
`"\n\n"` of the Python list can never be equal to a single character and is
dead; the live entries are these six characters. -/
def sentenceEndChars : List Char := ['.', '!', '?', '。', '！', '？']

/-- Condition checked at scan position `i` of the backward loop
`for i in range(end, start, -1)`: `text[i - 1] in sentence_ends and
(i - start) > self.chunk_size * 0.7`.  The float threshold is modelled
exactly as `10 * (i - start) > 7 * size`. -/
def codeCutHit (size : Nat) (text : List Char) (start i : Nat) : Bool :=
  sentenceEndChars.contains (text.getD (i - 1) ' ') && decide (10 * (i - start) > 7 * size)

/-- Backward scan `for i in range(end, start, -1)` of `_simple_text_chunking`:
starting at the window's right edge `e` and walking down to `start + 1`,
return the first position satisfying `codeCutHit`, if any. -/
def findSentenceCut (size : Nat) (text : List Char) (start : Nat) : Nat → Option Nat
  | 0 => none
  | i + 1 =>
    if i + 1 ≤ start then none
    else if codeCutHit size text start (i + 1) then some (i + 1)
    else findSentenceCut size text start i

/-- Window end used by `_simple_text_chunking` for the window starting at
`start`: `end = min(start + self.chunk_size, text_length)`, adjusted to a
sentence cut when the window's right edge is not the end of the text. -/
def chunkEnd (size : Nat) (text : List Char) (start : Nat) : Nat :=
  let e := min (start + size) text.length
  if e < text.length then
    match findSentenceCut size text start e with
    | some i => i
    | none => e
  else e

/-- Python slice `text[start:end]`. -/
def pySlice (text : List Char) (start e : Nat) : List Char :=
  (text.drop start).take (e - start)

/-- Python `str.strip()` on the whitespace characters relevant here. -/
def pyStrip (l : List Char) : List Char :=
  ((l.dropWhile Char.isWhitespace).reverse.dropWhile Char.isWhitespace).reverse

/-- The `while start < text_length` loop of `_simple_text_chunking`, with an
explicit fuel parameter: `none` means the loop did not finish within `fuel`
iterations.  Each iteration appends the stripped slice when non-empty and
moves `start` to `end - self.chunk_overlap`, clamped at `0` (natural
subtraction models the `if start < 0: start = 0` clamp exactly). -/
def chunkLoop (size overlap : Nat) (text : List Char) :
    Nat → Nat → List (List Char) → Option (List (List Char))
  | 0, _, _ => none
  | fuel + 1, start, acc =>
    if start < text.length then
      let e := chunkEnd size text start
      let c := pyStrip (pySlice text start e)
      chunkLoop size overlap text fuel (e - overlap) (if c.isEmpty then acc else acc ++ [c])
    else
      some acc

/-- `FileProcessor._simple_text_chunking`, fuelled. -/
def simple_text_chunking (size overlap : Nat) (text : List Char) (fuel : Nat) :
    Option (List (List Char)) :=
  if text.isEmpty then some [] else chunkLoop size overlap text fuel 0 []

/-- Input on which the chunking loop stalls: at `start = 0` with
`size = 10, overlap = 8` the sentence cut lands at `end = 8`, and the next
start `end - overlap = 0` makes no progress. -/
def c1Text : List Char := "abcdefg.ijklmnopqrstu".data

/-- Text whose only candidate cut inside the first window is a double
newline, which the code never matches. -/
def c3Text : List Char := "abcdefg\n\nijklmnopqrstu".data

/-- Sentence-terminator test as the specification words it: one of the six
characters, or a double newline ending at position `i - 1`. -/
def specSentenceHit (text : List Char) (i : Nat) : Bool :=
  sentenceEndChars.contains (text.getD (i - 1) ' ')
    || (decide (2 ≤ i) && (text.getD (i - 2) '.' == '\n') && (text.getD (i - 1) '.' == '\n'))

/-- Backward scan as the specification words it, including the
double-newline terminator. -/
def specFindCut (size : Nat) (text : List Char) (start : Nat) : Nat → Option Nat
  | 0 => none
  | i + 1 =>
    if i + 1 ≤ start then none
    else if specSentenceHit text (i + 1) && decide (10 * (i + 1 - start) > 7 * size) then
      some (i + 1)
    else specFindCut size text start i

/-- Window end as the specification words it. -/
def specChunkEnd (size : Nat) (text : List Char) (start : Nat) : Nat :=
  let e := min (start + size) text.length
  if e < text.length then
    match specFindCut size text start e with
    | some i => i
    | none => e
  else e

theorem chunkLoop_c1_stuck (fuel : Nat) :
    ∀ acc, chunkLoop 10 8 c1Text fuel 0 acc = none := by
  induction fuel with
  | zero => intro acc; rfl
  | succ n ih =>
    intro acc
    rw [chunkLoop]
    have h0 : (0 : Nat) < c1Text.length := by decide
    rw [if_pos h0]
    have he : chunkEnd 10 c1Text 0 = 8 := by decide
    simp only [he]
    exact ih _

theorem findSentenceCut_none (size : Nat) (text : List Char) (start : Nat) :
    ∀ k, findSentenceCut size text start k = none →
      ∀ i, start < i → i ≤ k → codeCutHit size text start i = false := by
  intro k
  induction k with
  | zero =>
    intro _ i hi hik
    omega
  | succ m ih =>
    intro hnone i hi hik
    rw [findSentenceCut] at hnone
    by_cases hle : m + 1 ≤ start
    · omega
    · rw [if_neg hle] at hnone
      by_cases hhit : codeCutHit size text start (m + 1) = true
      · rw [if_pos hhit] at hnone
        exact absurd hnone (by simp)
      · rw [if_neg hhit] at hnone
        rcases Nat.lt_or_ge i (m + 1) with hlt | hge
        · exact ih hnone i hi (by omega)
        · have : i = m + 1 := by omega
          subst this
          exact Bool.eq_false_iff.mpr hhit

theorem findSentenceCut_some (size : Nat) (text : List Char) (start : Nat) :
    ∀ k r, findSentenceCut size text start k = some r →
      start < r ∧ r ≤ k ∧ codeCutHit size text start r = true ∧
        ∀ j, r < j → j ≤ k → codeCutHit size text start j = false := by
  intro k
  induction k with
  | zero =>
    intro r hr
    exact absurd hr (by simp [findSentenceCut])
  | succ m ih =>
    intro r hr
    rw [findSentenceCut] at hr
    by_cases hle : m + 1 ≤ start
    · rw [if_pos hle] at hr
      exact absurd hr (by simp)
    · rw [if_neg hle] at hr
      by_cases hhit : codeCutHit size text start (m + 1) = true
      · rw [if_pos hhit] at hr
        have hrm : r = m + 1 := by
          have := Option.some.inj hr
          omega
        subst hrm
        refine ⟨by omega, le_refl _, hhit, ?_⟩
        intro j hj hjk
        omega
      · rw [if_neg hhit] at hr
        obtain ⟨h1, h2, h3, h4⟩ := ih r hr
        refine ⟨h1, by omega, h3, ?_⟩
        intro j hj hjk
        rcases Nat.lt_or_ge j (m + 1) with hlt | hge
        · exact h4 j hj (by omega)
        · have : j = m + 1 := by omega
          subst this
          exact Bool.eq_false_iff.mpr hhit

/-- C1: refuted on the code as written.  For the valid configuration
`size = 10, overlap = 8` (`0 ≤ overlap < size`) and the input `c1Text`,
the window starting at `0` is cut at the sentence end `8`, and the next
start `end - overlap = 0` is clamped only to be non-negative — the code has
no clamp forcing it strictly past the previous start — so the
`while start < text_length` loop repeats the same iteration forever: no
amount of fuel makes `_simple_text_chunking` terminate. -/
theorem c1_chunking_stalls (fuel : Nat) : simple_text_chunking 10 8 c1Text fuel = none := by
  rw [simple_text_chunking]
  rw [if_neg (by decide : ¬(c1Text.isEmpty = true))]
  exact chunkLoop_c1_stuck fuel []

/-- C3 counterexample: on `c3Text` the only terminator inside the first
window (size 10, start 0, right edge short of the text end) is the double
newline at positions 7–8; the specified cut is `9` but the code's membership
test compares single characters against the two-character entry `"\n\n"`,
never matches it, and keeps the raw boundary `10`. -/
theorem c3_double_newline_counterexample :
    min (0 + 10) c3Text.length < c3Text.length ∧
      chunkEnd 10 c3Text 0 ≠ specChunkEnd 10 c3Text 0 := by decide

/-- C3 (amended): when the window's right edge `min (start + size) |text|`
is strictly inside the text, the cut point is the nearest (largest) position
`i` in `(start, edge]` whose preceding character is one of the six
single-character sentence terminators and which lies past 70% of the window
— the double-newline entry of the code's list never matches — and the raw
edge is kept exactly when no such position exists. -/
theorem c3_cut_characterization (size : Nat) (text : List Char) (start : Nat)
    (h : min (start + size) text.length < text.length) :
    (chunkEnd size text start = min (start + size) text.length ∧
      ∀ i, start < i → i ≤ min (start + size) text.length →
        codeCutHit size text start i = false) ∨
    (start < chunkEnd size text start ∧
      chunkEnd size text start ≤ min (start + size) text.length ∧
      codeCutHit size text start (chunkEnd size text start) = true ∧
      ∀ j, chunkEnd size text start < j → j ≤ min (start + size) text.length →
        codeCutHit size text start j = false) := by
  have hce : chunkEnd size text start =
      (match findSentenceCut size text start (min (start + size) text.length) with
        | some i => i
        | none => min (start + size) text.length) := by
    rw [chunkEnd]
    exact if_pos h
  rcases hc : findSentenceCut size text start (min (start + size) text.length) with _ | r
  · left
    rw [hc] at hce
    exact ⟨hce, findSentenceCut_none size text start _ hc⟩
  · right
    rw [hc] at hce
    obtain ⟨h1, h2, h3, h4⟩ := findSentenceCut_some size text start _ r hc
    rw [hce]
    exact ⟨h1, h2, h3, h4⟩

/-- Witness for `c3_cut_characterization` at `size = 10`, `start = 0` on
`c1Text`, where the cut lands on the terminator at position 8. -/
theorem c3_cut_characterization_witness :
    codeCutHit 10 c1Text 0 (chunkEnd 10 c1Text 0) = true := by
  rcases c3_cut_characterization 10 c1Text 0 (by decide) with ⟨_, h2⟩ | ⟨_, _, h3, _⟩
  · exact absurd (h2 8 (by decide) (by decide)) (by decide)
  · exact h3

end FileProcessor

namespace VectorService

/-- `np.dot` on two equal-length 1-d arrays: the sum of elementwise
products.  (`calculate_similarity` reaches it only after `np.array`
conversion; the unequal-length case raises there and is handled by the
caller's `except`.) -/
def npDot (a b : List ℝ) : ℝ := (List.zipWith (fun x y => x * y) a b).sum

/-- `np.linalg.norm` of a 1-d array: the square root of the sum of
squares. -/
noncomputable def npNorm (a : List ℝ) : ℝ := Real.sqrt (npDot a a)

/-- `VectorService.calculate_similarity`: cosine similarity of two vectors,
`0.0` when either norm is zero, clamped into `[-1, 1]` by
`max(-1.0, min(1.0, similarity))`.  A length mismatch makes `np.dot` raise;
the surrounding `except` returns `0.0`. -/
noncomputable def calculate_similarity (vec1 vec2 : List ℝ) : ℝ :=
  if vec1.length ≠ vec2.length then 0
  else if npNorm vec1 = 0 ∨ npNorm vec2 = 0 then 0
  else max (-1) (min 1 (npDot vec1 vec2 / (npNorm vec1 * npNorm vec2)))

theorem npDot_self_nonneg (v : List ℝ) : 0 ≤ npDot v v := by
  induction v with
  | nil => simp [npDot]
  | cons a l ih =>
    have : npDot (a :: l) (a :: l) = a * a + npDot l l := by
      simp [npDot, List.zipWith]
    rw [this]
    nlinarith [ih]

theorem npDot_self_pos (v : List ℝ) (hv : ∃ x ∈ v, x ≠ 0) : 0 < npDot v v := by
  induction v with
  | nil => simp at hv
  | cons a l ih =>
    have hco : npDot (a :: l) (a :: l) = a * a + npDot l l := by
      simp [npDot, List.zipWith]
    rw [hco]
    rcases hv with ⟨x, hx, hxne⟩
    rcases List.mem_cons.mp hx with rfl | hxl
    · nlinarith [npDot_self_nonneg l, mul_self_pos.mpr hxne]
    · have := ih ⟨x, hxl, hxne⟩
      nlinarith [mul_self_nonneg a]

theorem npNorm_pos (v : List ℝ) (hv : ∃ x ∈ v, x ≠ 0) : 0 < npNorm v := by
  rw [npNorm]
  exact Real.sqrt_pos.mpr (npDot_self_pos v hv)

/-- C4: for equal-length vectors, `calculate_similarity` is the cosine
`dot(a,b) / (norm(a) * norm(b))` clamped into `[-1, 1]`, with value `0.0`
(never an error) when either norm is exactly zero; and on any non-zero
vector paired with itself it equals exactly `1`. -/
theorem c4_cosine_similarity (v1 v2 v : List ℝ) (hlen : v1.length = v2.length)
    (hv : ∃ x ∈ v, x ≠ 0) :
    calculate_similarity v1 v2 =
      (if npNorm v1 = 0 ∨ npNorm v2 = 0 then 0
       else max (-1) (min 1 (npDot v1 v2 / (npNorm v1 * npNorm v2)))) ∧
    calculate_similarity v v = 1 := by
  constructor
  · rw [calculate_similarity, if_neg (by simp [hlen])]
  · have hpos := npNorm_pos v hv
    have hne : ¬(npNorm v = 0 ∨ npNorm v = 0) := by simp [hpos.ne']
    rw [calculate_similarity, if_neg (by simp), if_neg hne]
    have hd : npNorm v * npNorm v = npDot v v := Real.mul_self_sqrt (npDot_self_nonneg v)
    rw [hd, div_self (npDot_self_pos v hv).ne']
    norm_num

/-- Witness for `c4_cosine_similarity` at `v1 = v2 = v = [2]`. -/
theorem c4_cosine_similarity_witness : calculate_similarity [(2 : ℝ)] [(2 : ℝ)] = 1 :=
  (c4_cosine_similarity [(2 : ℝ)] [(2 : ℝ)] [(2 : ℝ)] rfl ⟨2, by simp, by norm_num⟩).2

/-- Model of the `numpy.random` global generator used by
`_get_random_vector`: an abstract state (represented as a natural number),
`seedFn` for `np.random.seed(seed)` (the state the generator is put into by
seeding), and `randn` for `np.random.randn(n)` (the draws and the successor
state, or a failure, giving the generation step an explicit failure channel
for the surrounding `except` handlers).  `randn_length` records the numpy
guarantee that `randn(n)` produces exactly `n` draws. -/
structure NumpyRandom where
  seedFn : Nat → Nat
  randn : Nat → Nat → Except String (List ℝ × Nat)
  randn_length : ∀ st n v st2, randn st n = Except.ok (v, st2) → v.length = n

/-- Value of a hexadecimal digit, `0` on other characters (`md5.hexdigest`
only ever produces hexadecimal digits). -/
def hexDigitVal (c : Char) : Nat :=
  if '0' ≤ c ∧ c ≤ '9' then c.toNat - '0'.toNat
  else if 'a' ≤ c ∧ c ≤ 'f' then c.toNat - 'a'.toNat + 10
  else if 'A' ≤ c ∧ c ≤ 'F' then c.toNat - 'A'.toNat + 10
  else 0

/-- `int(s, 16)` on a hexadecimal string. -/
def hexToNat (s : List Char) : Nat :=
  s.foldl (fun acc c => 16 * acc + hexDigitVal c) 0

/-- `int(hashlib.md5(text.encode()).hexdigest()[:8], 16)`: the seed taken
from the leading 8 hex digits (4 bytes) of the text's digest; the digest
function itself is an abstract parameter `md5hex`. -/
def seedOf (md5hex : String → String) (text : String) : Nat :=
  hexToNat ((md5hex text).data.take 8)

/-- `VectorService._get_zero_vector`. -/
def get_zero_vector (dim : Nat) : List ℝ := List.replicate dim 0

/-- `VectorService._get_random_vector`, state-passing on the numpy global
generator: seed from the text's digest, draw `dim` standard-normal values,
L2-normalize when the norm is positive.  A failure inside the `try` is
answered by `_get_zero_vector()`. -/
noncomputable def get_random_vector (R : NumpyRandom) (md5hex : String → String)
    (dim : Nat) (text : String) (st : Nat) : List ℝ × Nat :=
  let st1 := R.seedFn (seedOf md5hex text)
  match R.randn st1 dim with
  | Except.error _ => (get_zero_vector dim, st1)
  | Except.ok (v, st2) =>
      if 0 < npNorm v then (v.map (fun x => x / npNorm v), st2) else (v, st2)

/-- Provider state relevant to `get_embedding`: the configured dimension and
the loaded backend (`None` is fallback mode; a loaded model is its `encode`
function, `String → List ℝ`, modelling `sentence-transformers` encoding). -/
structure Provider where
  dimension : Nat
  model : Option (String → List ℝ)

/-- Python blank test `not text or not text.strip()`: true exactly when the
text is empty or consists of whitespace only. -/
def isBlank (text : String) : Bool := text.data.all Char.isWhitespace

/-- `VectorService.get_embedding`: empty or whitespace-only text answers the
all-zero vector before the model/fallback branch; a loaded model encodes the
text; otherwise the deterministic fallback generator runs.  (The lazy
`_try_load_model` call only decides which mode `Provider.model` records; the
`except` fallbacks around the model call and the outer handler are subsumed
by the total model functions and `get_random_vector`'s failure channel.) -/
noncomputable def get_embedding (p : Provider) (R : NumpyRandom)
    (md5hex : String → String) (text : String) (st : Nat) : List ℝ × Nat :=
  if isBlank text then (get_zero_vector p.dimension, st)
  else
    match p.model with
    | some enc => (enc text, st)
    | none => get_random_vector R md5hex p.dimension text st

/-- The reference semantics the specification gives for `embed_many`:
calling `embed_one` per item, item by item (the outputs of `get_embedding`
do not depend on the incoming generator state, so reading every item at the
same state is the itemwise semantics). -/
noncomputable def itemwiseEmbeddings (p : Provider) (R : NumpyRandom)
    (md5hex : String → String) (texts : List String) (st : Nat) : List (List ℝ) :=
  texts.map (fun t => (get_embedding p R md5hex t st).1)

/-- The per-text loop `for text in texts: embeddings.append(self.get_embedding(text))`
of `get_embeddings_batch`, threading the generator state. -/
noncomputable def embedLoop (p : Provider) (R : NumpyRandom) (md5hex : String → String) :
    List String → Nat → List (List ℝ) × Nat
  | [], st => ([], st)
  | t :: ts, st =>
    let r := get_embedding p R md5hex t st
    let rest := embedLoop p R md5hex ts r.2
    (r.1 :: rest.1, rest.2)

/-- `VectorService.get_embeddings_batch`: empty input answers `[]`; with a
loaded model the whole batch goes through `model.encode(texts)` (which
encodes each text: `sentence-transformers` batch semantics); otherwise the
per-text loop over `get_embedding` runs. -/
noncomputable def get_embeddings_batch (p : Provider) (R : NumpyRandom)
    (md5hex : String → String) (texts : List String) (st : Nat) : List (List ℝ) × Nat :=
  if texts.isEmpty then ([], st)
  else
    match p.model with
    | some enc => (texts.map enc, st)
    | none => embedLoop p R md5hex texts st

theorem npNorm_nonneg (v : List ℝ) : 0 ≤ npNorm v := Real.sqrt_nonneg _

theorem npDot_map_div (v : List ℝ) (c : ℝ) (hc : c ≠ 0) :
    npDot (v.map fun x => x / c) (v.map fun x => x / c) = npDot v v / (c * c) := by
  induction v with
  | nil => simp [npDot]
  | cons a l ih =>
    have h1 : npDot ((a :: l).map fun x => x / c) ((a :: l).map fun x => x / c)
        = (a / c) * (a / c) + npDot (l.map fun x => x / c) (l.map fun x => x / c) := by
      simp [npDot, List.zipWith]
    have h2 : npDot (a :: l) (a :: l) = a * a + npDot l l := by
      simp [npDot, List.zipWith]
    rw [h1, h2, ih]
    field_simp

theorem npNorm_normalize (v : List ℝ) (hn : npNorm v ≠ 0) :
    npNorm (v.map fun x => x / npNorm v) = 1 := by
  have hd0 : npDot v v ≠ 0 := by
    intro h
    exact hn (by rw [npNorm, h, Real.sqrt_zero])
  rw [npNorm, npDot_map_div v (npNorm v) hn,
    show npNorm v * npNorm v = npDot v v from Real.mul_self_sqrt (npDot_self_nonneg v),
    div_self hd0, Real.sqrt_one]

/-- C5: on empty or whitespace-only text, `get_embedding` answers the
all-zero vector of the configured dimension with the generator state
untouched, whatever the loaded model and the generator are — the blank check
runs before the model/fallback branch. -/
theorem c5_blank_zero_vector (p : Provider) (R : NumpyRandom) (md5hex : String → String)
    (text : String) (st : Nat) (h : isBlank text = true) :
    get_embedding p R md5hex text st = (List.replicate p.dimension 0, st) := by
  rw [get_embedding, if_pos h]
  rfl

/-- Stand-in digest function for witnesses. -/
def md5c : String → String := fun _ => "0f"

/-- Witness generator: seeding stores the seed, `randn(n)` answers `n`
copies of `2` and keeps the state. -/
def trivialRandom : NumpyRandom where
  seedFn := id
  randn := fun st n => Except.ok (List.replicate n 2, st)
  randn_length := by
    intro st n v st2 h
    simp only [Except.ok.injEq, Prod.mk.injEq] at h
    rw [← h.1, List.length_replicate]

/-- Witness for `c5_blank_zero_vector`: whitespace-only text, model loaded. -/
theorem c5_blank_zero_vector_witness :
    get_embedding ⟨3, some fun _ => [5]⟩ trivialRandom md5c "   " 0
      = (List.replicate 3 0, 0) :=
  c5_blank_zero_vector _ _ _ _ _ (by decide)

/-- C6 counterexample: the single-space text is non-empty, yet in fallback
mode its embedding is the zero vector (the blank check fires before the
fallback generator), whose L2 norm is `0`, not `1`. -/
theorem c6_whitespace_counterexample :
    (" " : String) ≠ "" ∧
    npNorm (get_embedding ⟨1, none⟩ trivialRandom md5c " " 0).1 ≠ 1 := by
  refine ⟨by decide, ?_⟩
  have h : (get_embedding ⟨1, none⟩ trivialRandom md5c " " 0).1 = [(0 : ℝ)] := rfl
  have hz : npNorm [(0 : ℝ)] = 0 := by
    have hd : npDot [(0 : ℝ)] [(0 : ℝ)] = 0 := by simp [npDot]
    rw [npNorm, hd, Real.sqrt_zero]
  rw [h, hz]
  norm_num

/-- C6 (amended): in fallback mode on non-blank text, the embedding of a text does not
depend on the incoming generator state (the generator is re-seeded from the
text's digest on every call, so repeated calls agree), the vector is the
L2-normalization of the `dimension` draws made after seeding from the
digest's leading bytes, and its norm is exactly `1` whenever those draws are
not all zero. -/
theorem c6_fallback_deterministic_unit (R : NumpyRandom) (md5hex : String → String)
    (dim : Nat) (text : String) (st st2 : Nat) (hb : isBlank text = false)
    (draws : List ℝ) (stf : Nat)
    (hd : R.randn (R.seedFn (seedOf md5hex text)) dim = Except.ok (draws, stf))
    (hn : npNorm draws ≠ 0) :
    (get_embedding ⟨dim, none⟩ R md5hex text st).1
        = (get_embedding ⟨dim, none⟩ R md5hex text st2).1 ∧
    (get_embedding ⟨dim, none⟩ R md5hex text st).1
        = draws.map (fun x => x / npNorm draws) ∧
    npNorm (get_embedding ⟨dim, none⟩ R md5hex text st).1 = 1 := by
  have hval : ∀ s : Nat, (get_embedding ⟨dim, none⟩ R md5hex text s).1
      = draws.map (fun x => x / npNorm draws) := by
    intro s
    rw [get_embedding, if_neg (by rw [hb]; exact Bool.false_ne_true)]
    show (get_random_vector R md5hex dim text s).1 = _
    rw [get_random_vector]
    rw [hd]
    have hpos : 0 < npNorm draws := lt_of_le_of_ne (npNorm_nonneg draws) (Ne.symm hn)
    show (if 0 < npNorm draws then (draws.map (fun x => x / npNorm draws), stf)
        else (draws, stf)).1 = draws.map (fun x => x / npNorm draws)
    rw [if_pos hpos]
  refine ⟨by rw [hval st, hval st2], hval st, ?_⟩
  rw [hval st]
  exact npNorm_normalize draws hn

/-- Witness for `c6_fallback_deterministic_unit`: dimension 1, draws `[2]`,
result `[1]` of norm `1`. -/
theorem c6_fallback_deterministic_unit_witness :
    npNorm (get_embedding ⟨1, none⟩ trivialRandom md5c "x" 0).1 = 1 := by
  have hn : npNorm [(2 : ℝ)] ≠ 0 := by
    have hd : npDot [(2 : ℝ)] [(2 : ℝ)] = 4 := by
      simp [npDot, List.zipWith]
      norm_num
    rw [npNorm, hd]
    exact Real.sqrt_ne_zero'.mpr (by norm_num)
  exact (c6_fallback_deterministic_unit trivialRandom md5c 1 "x" 0 0 (by decide)
    [2] (trivialRandom.seedFn (seedOf md5c "x")) rfl hn).2.2

theorem get_embedding_fst_state_indep (p : Provider) (R : NumpyRandom)
    (md5hex : String → String) (t : String) (st st2 : Nat) :
    (get_embedding p R md5hex t st).1 = (get_embedding p R md5hex t st2).1 := by
  rw [get_embedding, get_embedding]
  by_cases hb : isBlank t
  · rw [if_pos hb, if_pos hb]
  · rw [if_neg hb, if_neg hb]
    cases p.model with
    | none => rfl
    | some enc => rfl

theorem embedLoop_fst_itemwise (p : Provider) (R : NumpyRandom) (md5hex : String → String) :
    ∀ (texts : List String) (st st2 : Nat),
      (embedLoop p R md5hex texts st).1 = itemwiseEmbeddings p R md5hex texts st2 := by
  intro texts
  induction texts with
  | nil => intro st st2; rfl
  | cons t ts ih =>
    intro st st2
    rw [embedLoop, itemwiseEmbeddings, List.map_cons]
    show (get_embedding p R md5hex t st).1 :: (embedLoop p R md5hex ts _).1
        = (get_embedding p R md5hex t st2).1 :: _
    rw [get_embedding_fst_state_indep p R md5hex t st st2, ih]
    rfl

/-- C7 counterexample: with a loaded model, `get_embeddings_batch` hands the
whole list to `model.encode` without the per-item blank check, so on the
one-element list `[""]` it answers the model's encoding of the empty string
while itemwise `get_embedding` answers the zero vector. -/
theorem c7_batch_blank_counterexample :
    (get_embeddings_batch ⟨1, some fun _ => [(1 : ℝ)]⟩ trivialRandom md5c [""] 0).1
      ≠ itemwiseEmbeddings ⟨1, some fun _ => [(1 : ℝ)]⟩ trivialRandom md5c [""] 0 := by
  have hL : (get_embeddings_batch ⟨1, some fun _ => [(1 : ℝ)]⟩ trivialRandom md5c [""] 0).1
      = [[(1 : ℝ)]] := rfl
  have hR : itemwiseEmbeddings ⟨1, some fun _ => [(1 : ℝ)]⟩ trivialRandom md5c [""] 0
      = [[(0 : ℝ)]] := rfl
  rw [hL, hR]
  intro h
  injection h with h1 _
  injection h1 with h2 _
  exact one_ne_zero h2

/-- C7 (amended): `get_embeddings_batch` agrees with mapping `get_embedding`
over the list item by item whenever the provider is in fallback mode, or
every text of the list is non-blank; in particular the batch of the empty
list is empty.  (The two sides can differ only on blank texts sent through a
loaded model, which skip the per-item zero-vector check.) -/
theorem c7_batch_agrees_itemwise (p : Provider) (R : NumpyRandom)
    (md5hex : String → String) (texts : List String) (st : Nat)
    (h : p.model = none ∨ ∀ t ∈ texts, isBlank t = false) :
    (get_embeddings_batch p R md5hex texts st).1
      = itemwiseEmbeddings p R md5hex texts st := by
  rw [get_embeddings_batch]
  by_cases hnil : texts.isEmpty
  · rw [if_pos hnil]
    rw [List.isEmpty_iff.mp hnil]
    rfl
  · rw [if_neg hnil]
    rcases h with hm | hb
    · rw [hm]
      exact embedLoop_fst_itemwise p R md5hex texts st st
    · cases hm : p.model with
      | none => exact embedLoop_fst_itemwise p R md5hex texts st st
      | some enc =>
        show texts.map enc = itemwiseEmbeddings p R md5hex texts st
        rw [itemwiseEmbeddings]
        refine List.map_congr_left ?_
        intro t ht
        rw [get_embedding, if_neg (by rw [hb t ht]; exact Bool.false_ne_true), hm]

/-- Witness for `c7_batch_agrees_itemwise`: fallback mode on a two-element
list. -/
theorem c7_batch_agrees_itemwise_witness :
    (get_embeddings_batch ⟨1, none⟩ trivialRandom md5c ["a", ""] 0).1
      = itemwiseEmbeddings ⟨1, none⟩ trivialRandom md5c ["a", ""] 0 :=
  c7_batch_agrees_itemwise ⟨1, none⟩ trivialRandom md5c ["a", ""] 0 (Or.inl rfl)

/-- C10: in fallback mode `get_embedding` is total and dimension-correct:
for every text the answer has exactly the configured dimension, and whenever
the draw step of the fallback generator fails, the answer is the all-zero
vector of the configured dimension. -/
theorem c10_fallback_total (R : NumpyRandom) (md5hex : String → String) (dim : Nat)
    (text : String) (st : Nat) :
    ((get_embedding ⟨dim, none⟩ R md5hex text st).1).length = dim ∧
    (∀ e, isBlank text = false →
      R.randn (R.seedFn (seedOf md5hex text)) dim = Except.error e →
      (get_embedding ⟨dim, none⟩ R md5hex text st).1 = List.replicate dim 0) := by
  constructor
  · rw [get_embedding]
    by_cases hb : isBlank text
    · rw [if_pos hb]
      exact List.length_replicate dim 0
    · rw [if_neg hb]
      show ((get_random_vector R md5hex dim text st).1).length = dim
      rw [get_random_vector]
      cases hr : R.randn (R.seedFn (seedOf md5hex text)) dim with
      | error e => exact List.length_replicate dim 0
      | ok pr =>
        obtain ⟨v, stf⟩ := pr
        have hl : v.length = dim := R.randn_length _ _ _ _ hr
        show ((if 0 < npNorm v then (v.map (fun x => x / npNorm v), stf)
            else (v, stf)).1).length = dim
        by_cases hp : 0 < npNorm v
        · rw [if_pos hp]
          rw [show ((v.map fun x => x / npNorm v, stf)).1 = v.map (fun x => x / npNorm v)
            from rfl, List.length_map]
          exact hl
        · rw [if_neg hp]
          exact hl
  · intro e hb hr
    rw [get_embedding, if_neg (by rw [hb]; exact Bool.false_ne_true)]
    show (get_random_vector R md5hex dim text st).1 = _
    rw [get_random_vector, hr]
    rfl

/-- Generator whose draw step always fails, for the `c10` witness. -/
def errRandom : NumpyRandom where
  seedFn := id
  randn := fun _ _ => Except.error "randn failed"
  randn_length := fun _ _ _ _ h => nomatch h

/-- Witness for `c10_fallback_total`: a failing generator still produces the
zero vector of the configured dimension 2. -/
theorem c10_fallback_total_witness :
    ((get_embedding ⟨2, none⟩ errRandom md5c "y" 0).1).length = 2 ∧
    (get_embedding ⟨2, none⟩ errRandom md5c "y" 0).1 = List.replicate 2 0 := by
  obtain ⟨h1, h2⟩ := c10_fallback_total errRandom md5c 2 "y" 0
  exact ⟨h1, h2 "randn failed" (by decide) rfl⟩

end VectorService

namespace Search

/-- A persisted chunk as `search_similar` sees it: its id and its nullable
embedding. -/
structure SChunk where
  id : Nat
  embedding : Option (List ℝ)

/-- The attribute `self.cosine_similarity` that `search_similar` invokes:
the `VectorService` class defines `calculate_similarity` and
`calculate_batch_similarities` but no `cosine_similarity`, and no other
module defines or assigns one, so the attribute lookup raises
`AttributeError`; the missing attribute is `none`. -/
def cosine_similarity_attr : Option (List ℝ → List ℝ → ℝ) := none

open Classical in
/-- Stable descending sort by score,
`results_with_scores.sort(key=..., reverse=True)`. -/
noncomputable def sortByScoreDesc (l : List (Nat × ℝ)) : List (Nat × ℝ) :=
  l.insertionSort fun a b => b.2 ≤ a.2

open Classical in
/-- `VectorService.search_similar` after the query embedding is computed:
keep the chunks whose embedding is non-null (database filter) and non-empty
(`if chunk.embedding:`), score each inside a per-chunk `try` whose `except`
skips the chunk, drop scores below the threshold, sort descending, truncate
to `limit`. -/
noncomputable def search_similar (queryEmbedding : List ℝ) (chunks : List SChunk)
    (limit : Nat) (threshold : ℝ) : List (Nat × ℝ) :=
  let withScores := chunks.filterMap fun c =>
    match c.embedding with
    | none => none
    | some emb =>
      if emb.isEmpty then none
      else
        match cosine_similarity_attr with
        | none => none
        | some f => if threshold ≤ f queryEmbedding emb then some (c.id, f queryEmbedding emb)
            else none
  (sortByScoreDesc withScores).take limit

/-- C2: refuted on the code as written.  Because the class has no
`cosine_similarity` attribute, every chunk's scoring raises
`AttributeError`, the per-chunk `except` swallows it, and `search_similar`
returns the empty list for every query, candidate set, limit and threshold —
in particular it is empty even when a candidate with a matching-dimension
embedding scores above the threshold. -/
theorem c2_search_always_empty (queryEmbedding : List ℝ) (chunks : List SChunk)
    (limit : Nat) (threshold : ℝ) :
    search_similar queryEmbedding chunks limit threshold = [] := by
  have helem : ∀ c : SChunk, (match c.embedding with
      | none => (none : Option (Nat × ℝ))
      | some emb =>
        if emb.isEmpty then none
        else
          match cosine_similarity_attr with
          | none => none
          | some f => if threshold ≤ f queryEmbedding emb then some (c.id, f queryEmbedding emb)
              else none) = none := by
    intro c
    obtain ⟨i, emb⟩ := c
    cases emb with
    | none => rfl
    | some v =>
      show (if v.isEmpty then none else (none : Option (Nat × ℝ))) = none
      exact ite_self none
  rw [search_similar]
  have hf : (chunks.filterMap fun c =>
      match c.embedding with
      | none => none
      | some emb =>
        if emb.isEmpty then none
        else
          match cosine_similarity_attr with
          | none => none
          | some f => if threshold ≤ f queryEmbedding emb then some (c.id, f queryEmbedding emb)
              else none) = [] := by
    induction chunks with
    | nil => rfl
    | cons c cs ih =>
      rw [List.filterMap_cons, helem c]
      exact ih
  rw [hf, show sortByScoreDesc [] = [] from rfl, List.take_nil]

end Search

namespace DocumentService

/-- Claim-relevant part of a document's `file_metadata` map. -/
structure DocMeta where
  status : String
  error : Option String
  chunksCount : Option Nat
deriving DecidableEq

/-- A `Document` row. -/
structure Doc where
  id : Nat
  filePath : String
  meta : DocMeta
deriving DecidableEq

/-- A `DocumentChunk` row. -/
structure ChunkRow where
  documentId : Nat
  chunkIndex : Nat
  chunkText : String
  embedding : Option (List ℚ)
deriving DecidableEq

/-- Database state: document rows and chunk rows. -/
structure DB where
  docs : List Doc
  chunks : List ChunkRow
deriving DecidableEq

/-- `db.query(Document).filter(Document.id == document_id).first()`. -/
def findDoc (db : DB) (docId : Nat) : Option Doc :=
  db.docs.find? fun d => d.id == docId

/-- Committed update of the metadata of the document(s) with the given id. -/
def setMeta (db : DB) (docId : Nat) (f : DocMeta → DocMeta) : DB :=
  { db with docs := db.docs.map fun d => if d.id == docId then { d with meta := f d.meta } else d }

/-- Chunk rows persisted for a document. -/
def chunksOf (db : DB) (docId : Nat) : List ChunkRow :=
  db.chunks.filter fun c => c.documentId == docId

/-- Metadata update `file_metadata["status"] = "processing"`. -/
def markProcessing (m : DocMeta) : DocMeta := { m with status := "processing" }

/-- Metadata update of the exception handler:
`file_metadata["status"] = "failed"; file_metadata["error"] = str(e)`. -/
def markFailed (e : String) (m : DocMeta) : DocMeta :=
  { m with status := "failed", error := some e }

/-- Metadata update on success:
`file_metadata["status"] = "completed"; file_metadata["chunks_count"] = n`. -/
def markCompleted (n : Nat) (m : DocMeta) : DocMeta :=
  { m with status := "completed", chunksCount := some n }

/-- Body of `process_document` from the `processing` commit on, once the
document row is found and its file exists. -/
def processWithFile (extract : String → Except String (List String))
    (embedBatch : List String → List (List ℚ))
    (db : DB) (docId : Nat) (doc : Doc) : Except String Nat × DB :=
  let db1 := setMeta db docId markProcessing
  match extract doc.filePath with
  | Except.error e => (Except.error e, setMeta db1 docId (markFailed e))
  | Except.ok chunks =>
    if chunks.isEmpty then
      (Except.ok 0, setMeta db1 docId (markCompleted 0))
    else
      let embeddings := embedBatch chunks
      let rows : List ChunkRow := chunks.enum.map fun p =>
        ⟨docId, p.1, p.2, embeddings[p.1]?⟩
      (Except.ok rows.length,
        setMeta { db1 with chunks := db1.chunks ++ rows } docId (markCompleted rows.length))

/-- `DocumentService.process_document` with `process_content=True`.
`extract` models `file_processor.process_file` (the chunk texts, or the
exception it raises); `embedBatch` models
`vector_service.get_embeddings_batch` (total: it catches its own errors);
`fs` is the set of paths present on disk.  Missing document: `ValueError`
propagates and the handler's write to `document.file_metadata` fails on
`None` and is swallowed by the bare `except`.  Missing file:
`FileNotFoundError` is recorded as status `failed` with the error text, then
re-raised.  An extraction error is recorded the same way after the
`processing` commit.  Empty extraction commits `completed` with
`chunks_count = 0` and no chunk rows.  Otherwise one row per chunk is added,
with `embedding = embeddings[i]` when `i < len(embeddings)`
(`chunk_data` gets no embedding key otherwise), and the document is marked
`completed` with the saved count. -/
def process_document (extract : String → Except String (List String))
    (embedBatch : List String → List (List ℚ))
    (fs : List String) (db : DB) (docId : Nat) : Except String Nat × DB :=
  match findDoc db docId with
  | none => (Except.error "document not found", db)
  | some doc =>
    if fs.contains doc.filePath then processWithFile extract embedBatch db docId doc
    else
      (Except.error "file not found",
        setMeta db docId (markFailed "file not found"))

/-- `DocumentService.delete_document`: missing document answers `false` and
touches nothing; otherwise the physical file is removed best-effort, the
document row is deleted and its chunk rows cascade. -/
def delete_document (fs : List String) (db : DB) (docId : Nat) :
    Bool × DB × List String :=
  match findDoc db docId with
  | none => (false, db, fs)
  | some doc =>
    let fs2 := if fs.contains doc.filePath then fs.erase doc.filePath else fs
    (true,
      { docs := db.docs.filter fun d => !(d.id == docId),
        chunks := db.chunks.filter fun c => !(c.documentId == docId) },
      fs2)

theorem setMeta_chunks (db : DB) (docId : Nat) (f : DocMeta → DocMeta) :
    (setMeta db docId f).chunks = db.chunks := rfl

theorem setMeta_mem_meta (db : DB) (docId : Nat) (f : DocMeta → DocMeta) (d : Doc)
    (hd : d ∈ (setMeta db docId f).docs) (hid : d.id = docId) :
    ∃ m, d.meta = f m := by
  obtain ⟨orig, _, heq⟩ := List.mem_map.mp hd
  by_cases h : (orig.id == docId) = true
  · rw [if_pos h] at heq
    exact ⟨orig.meta, by rw [← heq]⟩
  · rw [if_neg h] at heq
    rw [← heq] at hid
    exact absurd hid (by simpa using h)

/-- C8: whenever `process_document` ends in an error — including the
immediate file-missing failure — every document row with the processed id is
left with status `failed` and a stored error text, and the chunk rows of
that document are exactly what they were before the call; and when the
extracted text is empty, the call succeeds with count `0`, persists no
chunks, and marks the document `completed` with `chunks_count = 0`. -/
theorem c8_process_document_outcomes (extract : String → Except String (List String))
    (embedBatch : List String → List (List ℚ)) (fs : List String) (db : DB) (docId : Nat) :
    (∀ e, (process_document extract embedBatch fs db docId).1 = Except.error e →
      chunksOf (process_document extract embedBatch fs db docId).2 docId = chunksOf db docId ∧
      ∀ d ∈ (process_document extract embedBatch fs db docId).2.docs, d.id = docId →
        d.meta.status = "failed" ∧ d.meta.error.isSome = true) ∧
    (∀ doc, findDoc db docId = some doc → fs.contains doc.filePath = true →
      extract doc.filePath = Except.ok [] →
      (process_document extract embedBatch fs db docId).1 = Except.ok 0 ∧
      chunksOf (process_document extract embedBatch fs db docId).2 docId = chunksOf db docId ∧
      ∀ d ∈ (process_document extract embedBatch fs db docId).2.docs, d.id = docId →
        d.meta.status = "completed" ∧ d.meta.chunksCount = some 0) := by
  rcases hfind : findDoc db docId with _ | doc
  · have hP : process_document extract embedBatch fs db docId
        = (Except.error "document not found", db) := by
      unfold process_document
      rw [hfind]
    constructor
    · intro e _
      rw [hP]
      refine ⟨rfl, ?_⟩
      intro d hd hid
      have hnm := List.find?_eq_none.mp hfind d hd
      exact absurd (by simp [hid]) hnm
    · intro doc hdoc
      exact absurd hdoc (by simp)
  · by_cases hc : fs.contains doc.filePath = true
    · have hPP : process_document extract embedBatch fs db docId
          = processWithFile extract embedBatch db docId doc := by
        unfold process_document
        rw [hfind]
        show (if fs.contains doc.filePath = true then
            processWithFile extract embedBatch db docId doc
          else (Except.error "file not found", setMeta db docId (markFailed "file not found")))
            = processWithFile extract embedBatch db docId doc
        rw [if_pos hc]
      rcases hext : extract doc.filePath with e | chunks
      · have hPF : processWithFile extract embedBatch db docId doc
            = (Except.error e,
                setMeta (setMeta db docId markProcessing) docId (markFailed e)) := by
          unfold processWithFile
          rw [hext]
        constructor
        · intro e2 _
          rw [hPP, hPF]
          refine ⟨rfl, ?_⟩
          intro d hd hid
          obtain ⟨m, hm⟩ := setMeta_mem_meta _ _ _ d hd hid
          rw [hm]
          exact ⟨rfl, rfl⟩
        · intro doc2 hdoc2 _ hext2
          have hde : doc2 = doc := (Option.some.inj hdoc2).symm
          subst hde
          rw [hext] at hext2
          exact absurd hext2 (by simp)
      · rcases chunks with _ | ⟨c0, cs⟩
        · have hPF : processWithFile extract embedBatch db docId doc
              = (Except.ok 0,
                  setMeta (setMeta db docId markProcessing) docId (markCompleted 0)) := by
            unfold processWithFile
            rw [hext]
            rfl
          constructor
          · intro e2 he2
            rw [hPP, hPF] at he2
            exact absurd he2 (by simp)
          · intro doc2 _ _ _
            rw [hPP, hPF]
            refine ⟨rfl, rfl, ?_⟩
            intro d hd hid
            obtain ⟨m, hm⟩ := setMeta_mem_meta _ _ _ d hd hid
            rw [hm]
            exact ⟨rfl, rfl⟩
        · have hPF1 : (processWithFile extract embedBatch db docId doc).1
              = Except.ok (((c0 :: cs).enum.map fun p =>
                  (⟨docId, p.1, p.2, (embedBatch (c0 :: cs))[p.1]?⟩ : ChunkRow)).length) := by
            unfold processWithFile
            rw [hext]
            rfl
          constructor
          · intro e2 he2
            rw [hPP] at he2
            rw [hPF1] at he2
            exact absurd he2 (by simp)
          · intro doc2 hdoc2 _ hext2
            have hde : doc2 = doc := (Option.some.inj hdoc2).symm
            subst hde
            rw [hext] at hext2
            exact absurd hext2 (by simp)
    · have hP : process_document extract embedBatch fs db docId
          = (Except.error "file not found",
              setMeta db docId (markFailed "file not found")) := by
        unfold process_document
        rw [hfind]
        show (if fs.contains doc.filePath = true then
            processWithFile extract embedBatch db docId doc
          else (Except.error "file not found", setMeta db docId (markFailed "file not found")))
            = (Except.error "file not found", setMeta db docId (markFailed "file not found"))
        rw [if_neg hc]
      constructor
      · intro e2 _
        rw [hP]
        refine ⟨rfl, ?_⟩
        intro d hd hid
        obtain ⟨m, hm⟩ := setMeta_mem_meta _ _ _ d hd hid
        rw [hm]
        exact ⟨rfl, rfl⟩
      · intro doc2 hdoc2 hc2 _
        have hde : doc2 = doc := (Option.some.inj hdoc2).symm
        subst hde
        exact absurd hc2 hc

/-- Scenario for the `c8` witness: one pending document whose backing file
is absent from the (empty) filesystem. -/
def dbW : DB := ⟨[⟨1, "p.txt", ⟨"pending", none, none⟩⟩], []⟩

def exW : String → Except String (List String) := fun _ => Except.ok ["text"]

def embW : List String → List (List ℚ) := fun _ => []

/-- The document row after the failed run. -/
def dW : Doc := ⟨1, "p.txt", ⟨"failed", some "file not found", none⟩⟩

/-- Witness for `c8_process_document_outcomes`: processing `dbW` against an
empty filesystem fails, keeps zero chunks, and the resulting row `dW` is
marked failed with an error recorded. -/
theorem c8_process_document_outcomes_witness :
    chunksOf (process_document exW embW [] dbW 1).2 1 = chunksOf dbW 1 ∧
    dW.meta.status = "failed" ∧ dW.meta.error.isSome = true := by
  have h := (c8_process_document_outcomes exW embW [] dbW 1).1 "file not found" rfl
  exact ⟨h.1, h.2 dW (by decide) rfl⟩

/-- C9: deleting a non-existent document id answers `false`, does not raise,
and leaves the database rows and the filesystem untouched. -/
theorem c9_delete_missing_noop (fs : List String) (db : DB) (docId : Nat)
    (h : findDoc db docId = none) :
    delete_document fs db docId = (false, db, fs) := by
  unfold delete_document
  rw [h]

/-- Witness for `c9_delete_missing_noop` on an empty database. -/
theorem c9_delete_missing_noop_witness :
    delete_document ["a.txt"] ⟨[], []⟩ 7 = (false, ⟨[], []⟩, ["a.txt"]) :=
  c9_delete_missing_noop ["a.txt"] ⟨[], []⟩ 7 rfl

end DocumentService
